import Mathlib

/-!
Verification of the liquidity-bin distribution engine, strategy simulator and
order matching engine of the saros-dlmm-demo repository.

The TypeScript source is shallowly embedded:

* JavaScript numbers are modelled by `JsNum := Option ℚ`; `none` stands for a
  non-finite result (`NaN` or `±Infinity`).  All arithmetic on the values that
  the claims inspect is exact rational arithmetic in the source's floats (small
  integers, divisions by zero, comparisons), so the rational model is faithful
  there; `none` absorbs every division by zero exactly where JavaScript
  produces a non-finite value, and non-finite operands propagate to `none`
  exactly where JavaScript propagates `NaN` (the only difference, finite
  results built from infinite operands such as `1/Infinity`, is never reached
  by any definition below on the inputs the theorems talk about).
* Comparisons mirror JavaScript: any comparison with a non-finite value is
  `false`, and the `x === 0` test is `false` on non-finite `x`.
* `Math.sqrt` is exact on perfect squares (in particular on `0`) and on
  negative inputs returns `none`; on other inputs it returns the integer-part
  approximation (a stand-in for the float approximation — no theorem depends
  on such a value).
-/

/-- JavaScript number: `some q` is the finite value `q`, `none` is a
non-finite value (`NaN` or an infinity). -/
abbrev JsNum := Option ℚ

/-- JavaScript addition (non-finite operands propagate). -/
def jadd : JsNum → JsNum → JsNum
  | some a, some b => some (a + b)
  | _, _ => none

/-- JavaScript subtraction. -/
def jsub : JsNum → JsNum → JsNum
  | some a, some b => some (a - b)
  | _, _ => none

/-- JavaScript multiplication. -/
def jmul : JsNum → JsNum → JsNum
  | some a, some b => some (a * b)
  | _, _ => none

/-- JavaScript division: division by zero yields a non-finite value
(`NaN` or `±Infinity`), modelled as `none`. -/
def jdiv : JsNum → JsNum → JsNum
  | some a, some b => if b = 0 then none else some (a / b)
  | _, _ => none

/-- Embeds `Math.pow` with a natural exponent (the source only uses 2 and 3 here). -/
def jpowN : JsNum → Nat → JsNum
  | some a, n => some (a ^ n)
  | none, _ => none

/-- Integer-part rational square root: exact on perfect squares (and on 0),
an approximation stand-in for the float value otherwise. -/
def ratSqrt (q : ℚ) : ℚ :=
  (Nat.sqrt q.num.toNat : ℚ) / (Nat.sqrt q.den : ℚ)

/-- Embeds `Math.sqrt`: negative and non-finite inputs give `NaN`. -/
def jsqrt : JsNum → JsNum
  | some a => if a < 0 then none else some (ratSqrt a)
  | none => none

/-- Embeds `Math.max` (returns `NaN` when an argument is `NaN`). -/
def jmax : JsNum → JsNum → JsNum
  | some a, some b => some (max a b)
  | _, _ => none

/-- Embeds `Math.abs`. -/
def jabs : JsNum → JsNum
  | some a => some |a|
  | none => none

/-- JavaScript `>` (false whenever an operand is non-finite). -/
def jsGt : JsNum → JsNum → Bool
  | some a, some b => decide (b < a)
  | _, _ => false

/-- JavaScript `<` (false whenever an operand is non-finite). -/
def jsLt : JsNum → JsNum → Bool
  | some a, some b => decide (a < b)
  | _, _ => false

/-- JavaScript `<=` (false whenever an operand is non-finite). -/
def jsLe : JsNum → JsNum → Bool
  | some a, some b => decide (a ≤ b)
  | _, _ => false

/-- JavaScript `x === 0` (false on non-finite `x`). -/
def jsEqZero : JsNum → Bool
  | some a => decide (a = 0)
  | none => false

/-- JavaScript array element access `l[i]`: out-of-range access yields
`undefined`, which behaves like a non-finite value in the arithmetic that
consumes it here. -/
def jsGet (l : List ℚ) (i : ℤ) : JsNum :=
  if h : 0 ≤ i ∧ i.toNat < l.length then some (l.get ⟨i.toNat, h.2⟩) else none

/-- Last element of a JavaScript array accessed as `l[l.length - 1]`
(`undefined`, i.e. non-finite, on the empty array). -/
def jlast (l : List JsNum) : JsNum := (l.getLast?).getD none

/-- Embeds `Math.sign` on a finite value, as an integer. -/
def qsign (q : ℚ) : ℤ := if 0 < q then 1 else if q < 0 then -1 else 0

/-!
## Distribution helpers (src/unnamed/part_001)

`Distribution` in the source is an array of
`{ binRelativeId: number; bpsX: number; bpsY: number }`.  All ids and weights
produced by the generators are integers; weights are kept as `ℚ` because the
analyzer divides them.
-/

/-- One bin of a liquidity distribution (source type `Distribution`). -/
structure DistBin where
  binRelativeId : ℤ
  bpsX : ℚ
  bpsY : ℚ
  deriving Repr, DecidableEq

/-- The integer range `[lo, hi]` used for `for (let i = lo; i <= hi; i++)`. -/
def intRange (lo hi : ℤ) : List ℤ :=
  (List.range (hi + 1 - lo).toNat).map (fun k => lo + (k : ℤ))

/-- Embeds `makeCenteredDistribution` from the source: per-bin weight
`floor(10000/w)` off-center, remainder `10000 - per*w` added to the center
bin, split across both sides (larger half to the quote side). -/
def makeCenteredDistribution (width : ℤ) : List DistBin :=
  let w := max 1 width
  let half := w / 2
  let per : ℚ := ((⌊(10000 : ℚ) / (w : ℚ)⌋ : ℤ) : ℚ)
  let rem : ℚ := 10000 - per * (w : ℚ)
  (intRange (-half) half).map (fun i =>
    if i = 0 then
      { binRelativeId := i,
        bpsX := ((⌊rem / 2⌋ : ℤ) : ℚ),
        bpsY := rem - ((⌊rem / 2⌋ : ℤ) : ℚ) }
    else
      { binRelativeId := i, bpsX := if i < 0 then per else 0,
        bpsY := if 0 < i then per else 0 })

/-- Embeds `makeSingleSidedX`: `width` bins at ids `-1 .. -width`, equal weight,
remainder absorbed by the first (closest-to-center) bin. -/
def makeSingleSidedX (width : ℕ) : List DistBin :=
  let per : ℚ := ((⌊(10000 : ℚ) / (width : ℚ)⌋ : ℤ) : ℚ)
  let used : ℚ := per * (width : ℚ)
  (List.range width).map (fun k =>
    { binRelativeId := -(k : ℤ) - 1,
      bpsX := if k = 0 then per + (10000 - used) else per,
      bpsY := 0 })

/-- Embeds `makeSingleSidedY`: `width` bins at ids `1 .. width`, equal weight,
remainder absorbed by the first bin. -/
def makeSingleSidedY (width : ℕ) : List DistBin :=
  let per : ℚ := ((⌊(10000 : ℚ) / (width : ℚ)⌋ : ℤ) : ℚ)
  let used : ℚ := per * (width : ℚ)
  (List.range width).map (fun k =>
    { binRelativeId := (k : ℤ) + 1,
      bpsX := 0,
      bpsY := if k = 0 then per + (10000 - used) else per })

/-- Embeds `makeMomentumDistribution`: centered ids shifted by
`sign(momentum) * floor(w/4)`; no remainder handling. -/
def makeMomentumDistribution (width : ℤ) (momentum : ℚ) : List DistBin :=
  let w := max 1 width
  let half := w / 2
  let shift := qsign momentum * (w / 4)
  let per : ℚ := ((⌊(10000 : ℚ) / (w : ℚ)⌋ : ℤ) : ℚ)
  (intRange (-half) half).map (fun i =>
    { binRelativeId := i + shift, bpsX := if i < 0 then per else 0,
      bpsY := if 0 < i then per else 0 })

/-- Embeds `makeMeanReversionDistribution`: centered ids shifted by
`-sign(deviation) * floor(w/4)`; no remainder handling. -/
def makeMeanReversionDistribution (width : ℤ) (deviation : ℚ) : List DistBin :=
  let w := max 1 width
  let half := w / 2
  let shift := -qsign deviation * (w / 4)
  let per : ℚ := ((⌊(10000 : ℚ) / (w : ℚ)⌋ : ℤ) : ℚ)
  (intRange (-half) half).map (fun i =>
    { binRelativeId := i + shift, bpsX := if i < 0 then per else 0,
      bpsY := if 0 < i then per else 0 })

/-- Embeds `makeConservativeDistribution`: centered construction with the width
clamped to `[1, 5]`; no remainder handling. -/
def makeConservativeDistribution (width : ℤ) : List DistBin :=
  let w := max 1 (min width 5)
  let half := w / 2
  let per : ℚ := ((⌊(10000 : ℚ) / (w : ℚ)⌋ : ℤ) : ℚ)
  (intRange (-half) half).map (fun i =>
    { binRelativeId := i, bpsX := if i < 0 then per else 0,
      bpsY := if 0 < i then per else 0 })

/-- Embeds `makeAggressiveDistribution`: centered construction with the width
clamped to `[1, 15]`; no remainder handling. -/
def makeAggressiveDistribution (width : ℤ) : List DistBin :=
  let w := max 1 (min width 15)
  let half := w / 2
  let per : ℚ := ((⌊(10000 : ℚ) / (w : ℚ)⌋ : ℤ) : ℚ)
  (intRange (-half) half).map (fun i =>
    { binRelativeId := i, bpsX := if i < 0 then per else 0,
      bpsY := if 0 < i then per else 0 })

/-- Total of `bpsX + bpsY` over a distribution (the reduce shared by
`validateDistribution`, `normalizeDistribution` and `getDistributionMetrics`). -/
def distTotalBps (d : List DistBin) : ℚ :=
  d.foldl (fun s b => s + b.bpsX + b.bpsY) 0

/-- Embeds `validateDistribution`: true iff the summed weights equal 10000. -/
def validateDistribution (d : List DistBin) : Bool :=
  decide (distTotalBps d = 10000)

/-!
## Distribution analyzer (`getDistributionMetrics`, src/unnamed/part_001)

`mean`, `variance`, `stdDev` and `skewness` are the intermediate constants of
the source function, exposed as definitions so theorems can talk about them.
-/

/-- Number of bins carrying weight (`activeBins`). -/
def distActiveBins (d : List DistBin) : ℕ :=
  (d.filter (fun b => 0 < b.bpsX ∨ 0 < b.bpsY)).length

/-- Herfindahl concentration index. -/
def distConcentration (d : List DistBin) : ℚ :=
  d.foldl (fun s b => s + ((b.bpsX + b.bpsY) / 10000) ^ 2) 0

/-- Weighted mean bin id (`NaN`, i.e. `none`, when the total weight is 0). -/
def distMean (d : List DistBin) : JsNum :=
  jdiv (some (d.foldl (fun s b => s + (b.binRelativeId : ℚ) * (b.bpsX + b.bpsY)) 0))
    (some (distTotalBps d))

/-- Weighted variance of the bin ids around `distMean`. -/
def distVariance (d : List DistBin) : JsNum :=
  d.foldl
    (fun s b =>
      jadd s (jmul (jpowN (jsub (some (b.binRelativeId : ℚ)) (distMean d)) 2)
        (some ((b.bpsX + b.bpsY) / 10000))))
    (some 0)

/-- Embeds `stdDev = Math.sqrt(variance)`. -/
def distStdDev (d : List DistBin) : JsNum := jsqrt (distVariance d)

/-- Weighted third standardized moment of the bin ids. -/
def distSkewness (d : List DistBin) : JsNum :=
  d.foldl
    (fun s b =>
      jadd s (jmul (jpowN (jdiv (jsub (some (b.binRelativeId : ℚ)) (distMean d))
        (distStdDev d)) 3) (some ((b.bpsX + b.bpsY) / 10000))))
    (some 0)

/-- Result record of `getDistributionMetrics`. -/
structure DistMetrics where
  totalBps : ℚ
  activeBins : ℕ
  concentration : ℚ
  skewness : JsNum
  deriving Repr, DecidableEq

/-- Embeds `getDistributionMetrics` from the source. -/
def getDistributionMetrics (d : List DistBin) : DistMetrics :=
  { totalBps := distTotalBps d
    activeBins := distActiveBins d
    concentration := distConcentration d
    skewness := distSkewness d }

/-!
## Strategy simulator (src/unnamed/part_002)

`Math.random()` is injected as a sequence `rand : ℕ → ℚ` of draws from
`[0, 1)`, consumed by `generatePriceData`; everything else is deterministic.
Dates are modelled by their millisecond epoch values (`ℤ`); the event
timestamp `startDate.getTime() + i*24*60*60*1000` becomes
`startTime + i * msPerDay`.  `reason` strings are kept, but the numeric
interpolation of `toFixed` rendering inside two of them is not modelled (no
claim inspects a reason string).
-/

/-- Milliseconds per day, as used by the source's date arithmetic. -/
def msPerDay : ℤ := 24 * 60 * 60 * 1000

/-- Strategy tag of `SimulationParams`. -/
inductive StrategyTag | passive | active | momentum | meanReversion
  deriving Repr, DecidableEq

/-- Risk tolerance tag. -/
inductive RiskTag | low | medium | high
  deriving Repr, DecidableEq

/-- Embeds `SimulationParams` from the source. -/
structure SimulationParams where
  initialCapital : ℚ
  strategy : StrategyTag
  duration : ℕ
  rebalanceFrequency : ℚ
  riskTolerance : RiskTag
  pair : String
  deriving Repr, DecidableEq

/-- Embeds `RebalanceEvent` from the source (`action` is always the literal
string-tag `rebalance` in the code paths below). -/
structure RebalanceEvent where
  timestamp : ℤ
  action : String
  amount : JsNum
  price : ℚ
  reason : String
  deriving Repr, DecidableEq

/-- The advanced-metrics record. -/
structure AdvancedMetrics where
  volatility : JsNum
  calmarRatio : JsNum
  sortinoRatio : JsNum
  var95 : JsNum
  cvar95 : JsNum
  deriving Repr, DecidableEq

/-- Embeds `SimulationResult` from the source. -/
structure SimulationResult where
  finalValue : JsNum
  totalReturn : JsNum
  annualizedReturn : JsNum
  maxDrawdown : JsNum
  sharpeRatio : JsNum
  winRate : JsNum
  totalFees : JsNum
  netReturn : JsNum
  dailyReturns : List JsNum
  portfolioValues : List JsNum
  rebalanceEvents : List RebalanceEvent
  metrics : AdvancedMetrics
  deriving Repr, DecidableEq

/-- A strategy decision (`{rebalance, newDistribution?, reason}`). -/
structure StrategyDecision where
  rebalance : Bool
  newDistribution : Option (List DistBin)
  reason : String
  deriving Repr, DecidableEq

/-- JavaScript `Array.prototype.slice(start, end)` with negative indices
counted from the end and clamped. -/
def jsSlice (l : List ℚ) (start stop : ℤ) : List ℚ :=
  let len : ℤ := l.length
  let s : ℤ := if start < 0 then max (len + start) 0 else min start len
  let e : ℤ := if stop < 0 then max (len + stop) 0 else min stop len
  if s < e then (l.drop s.toNat).take (e - s).toNat else []

/-- Embeds `getLiquidityExposure`. -/
def getLiquidityExposure (params : SimulationParams) : ℚ :=
  match params.strategy with
  | .passive => 8/10
  | .active => 9/10
  | .momentum => 85/100
  | .meanReversion => 75/100

/-- Embeds `getVolatilityThreshold`. -/
def getVolatilityThreshold (riskTolerance : RiskTag) : ℚ :=
  match riskTolerance with
  | .low => 1/100
  | .medium => 2/100
  | .high => 3/100

/-- Sign of a strategy signal, as used for the bin-id shifts.  Under every
call site's guard the signal is finite, so the non-finite case (where
JavaScript would produce NaN bin ids) is unreachable; it is mapped to 0. -/
def jsignZ : JsNum → ℤ
  | some v => qsign v
  | none => 0

/-- Embeds `generateBalancedDistribution` (simulator): centered bins, width 5/7/9 by
risk tolerance, no remainder handling. -/
def generateBalancedDistribution (riskTolerance : RiskTag) : List DistBin :=
  let width : ℤ := match riskTolerance with | .low => 5 | .medium => 7 | .high => 9
  let per : ℚ := ((⌊(10000 : ℚ) / (width : ℚ)⌋ : ℤ) : ℚ)
  (intRange (-(width / 2)) (width / 2)).map (fun i =>
    { binRelativeId := i, bpsX := if i < 0 then per else 0,
      bpsY := if 0 < i then per else 0 })

/-- Embeds `generateVolatilityAdjustedDistribution` (simulator): centered bins of
width 3/5/7 shifted by `sign(priceChange) * floor(width/4)`. -/
def generateVolatilityAdjustedDistribution (params : SimulationParams)
    (priceChange : JsNum) : List DistBin :=
  let width : ℤ := match params.riskTolerance with | .low => 3 | .medium => 5 | .high => 7
  let per : ℚ := ((⌊(10000 : ℚ) / (width : ℚ)⌋ : ℤ) : ℚ)
  let shift := jsignZ priceChange * (width / 4)
  (intRange (-(width / 2)) (width / 2)).map (fun i =>
    { binRelativeId := i + shift, bpsX := if i < 0 then per else 0,
      bpsY := if 0 < i then per else 0 })

/-- Embeds `generateMomentumDistribution` (simulator): centered bins of width 3/5/7
shifted by `sign(momentum) * floor(width/3)`. -/
def generateMomentumDistribution (params : SimulationParams)
    (momentum : JsNum) : List DistBin :=
  let width : ℤ := match params.riskTolerance with | .low => 3 | .medium => 5 | .high => 7
  let per : ℚ := ((⌊(10000 : ℚ) / (width : ℚ)⌋ : ℤ) : ℚ)
  let shift := jsignZ momentum * (width / 3)
  (intRange (-(width / 2)) (width / 2)).map (fun i =>
    { binRelativeId := i + shift, bpsX := if i < 0 then per else 0,
      bpsY := if 0 < i then per else 0 })

/-- Embeds `generateMeanReversionDistribution` (simulator): centered bins of width
5/7/9 shifted by `-sign(deviation) * floor(width/4)`. -/
def generateMeanReversionDistribution (params : SimulationParams)
    (deviation : JsNum) : List DistBin :=
  let width : ℤ := match params.riskTolerance with | .low => 5 | .medium => 7 | .high => 9
  let per : ℚ := ((⌊(10000 : ℚ) / (width : ℚ)⌋ : ℤ) : ℚ)
  let shift := -jsignZ deviation * (width / 4)
  (intRange (-(width / 2)) (width / 2)).map (fun i =>
    { binRelativeId := i + shift, bpsX := if i < 0 then per else 0,
      bpsY := if 0 < i then per else 0 })

/-- Embeds `applyPassiveStrategy`: rebalance exactly when `dayIndex % 7 === 0`. -/
def applyPassiveStrategy (params : SimulationParams) (dayIndex : ℕ) :
    StrategyDecision :=
  if dayIndex % 7 = 0 then
    { rebalance := true,
      newDistribution := some (generateBalancedDistribution params.riskTolerance),
      reason := "Weekly rebalance" }
  else
    { rebalance := false, newDistribution := none, reason := "No rebalance needed" }

/-- Embeds `applyActiveStrategy`: rebalance when `|priceChange|` exceeds the risk
threshold. -/
def applyActiveStrategy (params : SimulationParams) (priceChange : JsNum) :
    StrategyDecision :=
  if jsGt (jabs priceChange) (some (getVolatilityThreshold params.riskTolerance)) then
    { rebalance := true,
      newDistribution := some (generateVolatilityAdjustedDistribution params priceChange),
      reason := "High volatility detected" }
  else
    { rebalance := false, newDistribution := none,
      reason := "Volatility within threshold" }

/-- Embeds `applyMomentumStrategy`: requires 5 days of history; compares the
trailing 5-day return with the trailing 20-day return. -/
def applyMomentumStrategy (params : SimulationParams) (priceData : List ℚ)
    (dayIndex : ℕ) : StrategyDecision :=
  if dayIndex < 5 then
    { rebalance := false, newDistribution := none, reason := "Insufficient data" }
  else
    let shortTerm := jsSlice priceData ((dayIndex : ℤ) - 5) dayIndex
    let longTerm := jsSlice priceData ((dayIndex : ℤ) - 20) dayIndex
    let shortTermReturn :=
      jdiv (jsub (jsGet shortTerm ((shortTerm.length : ℤ) - 1)) (jsGet shortTerm 0))
        (jsGet shortTerm 0)
    let longTermReturn :=
      jdiv (jsub (jsGet longTerm ((longTerm.length : ℤ) - 1)) (jsGet longTerm 0))
        (jsGet longTerm 0)
    if jsGt shortTermReturn longTermReturn ∧ jsGt shortTermReturn (some (2/100)) then
      { rebalance := true,
        newDistribution := some (generateMomentumDistribution params shortTermReturn),
        reason := "Momentum detected" }
    else
      { rebalance := false, newDistribution := none, reason := "No momentum signal" }

/-- Embeds `applyMeanReversionStrategy`: requires 10 days of history; compares the
trailing 5-day mean with the mean of the 15 days before it. -/
def applyMeanReversionStrategy (params : SimulationParams) (priceData : List ℚ)
    (dayIndex : ℕ) : StrategyDecision :=
  if dayIndex < 10 then
    { rebalance := false, newDistribution := none, reason := "Insufficient data" }
  else
    let recent := jsSlice priceData ((dayIndex : ℤ) - 5) dayIndex
    let historical := jsSlice priceData ((dayIndex : ℤ) - 20) ((dayIndex : ℤ) - 5)
    let recentAvg := jdiv (some (recent.foldl (· + ·) 0)) (some (recent.length : ℚ))
    let historicalAvg :=
      jdiv (some (historical.foldl (· + ·) 0)) (some (historical.length : ℚ))
    let deviation := jdiv (jsub recentAvg historicalAvg) historicalAvg
    if jsGt (jabs deviation) (some (5/100)) then
      { rebalance := true,
        newDistribution := some (generateMeanReversionDistribution params deviation),
        reason := "Mean reversion signal" }
    else
      { rebalance := false, newDistribution := none, reason := "No mean reversion signal" }

/-- Embeds `applyStrategy`: dispatch on the strategy tag. -/
def applyStrategy (params : SimulationParams) (priceChange : JsNum)
    (dayIndex : ℕ) (priceData : List ℚ) : StrategyDecision :=
  match params.strategy with
  | .passive => applyPassiveStrategy params dayIndex
  | .active => applyActiveStrategy params priceChange
  | .momentum => applyMomentumStrategy params priceData dayIndex
  | .meanReversion => applyMeanReversionStrategy params priceData dayIndex

/-- Result of `executeRebalance`. -/
structure RebalanceExec where
  newValue : JsNum
  fees : JsNum
  amount : JsNum
  deriving Repr, DecidableEq

/-- Embeds `executeRebalance`: a flat 0.3% fee on the current value; the proposed
distribution is accepted but otherwise unused. -/
def executeRebalance (currentValue : JsNum) (distribution : List DistBin)
    (currentPrice : ℚ) : RebalanceExec :=
  let fees := jmul currentValue (3/1000 : ℚ)
  { newValue := jsub currentValue fees, fees := fees, amount := currentValue }

/-- Mutable state of the simulation loop. -/
structure SimState where
  portfolioValue : JsNum
  totalFees : JsNum
  dailyReturns : List JsNum
  portfolioValues : List JsNum
  rebalanceEvents : List RebalanceEvent
  deriving Repr, DecidableEq

/-- One iteration of the `for (let i = 1; i < priceData.length; i++)` body. -/
def simStep (params : SimulationParams) (startTime : ℤ) (priceData : List ℚ)
    (prev cur : ℚ) (i : ℕ) (st : SimState) : SimState :=
  let priceChange := jdiv (some (cur - prev)) (some prev)
  let dec := applyStrategy params priceChange i priceData
  let st1 :=
    if dec.rebalance then
      let r := executeRebalance st.portfolioValue (dec.newDistribution.getD []) cur
      { st with
        portfolioValue := r.newValue
        totalFees := jadd st.totalFees r.fees
        rebalanceEvents := st.rebalanceEvents ++
          [{ timestamp := startTime + (i : ℤ) * msPerDay, action := "rebalance",
             amount := r.amount, price := cur, reason := dec.reason }] }
    else
      let grown := jmul st.portfolioValue
        (jadd (some 1) (jmul priceChange (some (getLiquidityExposure params))))
      { st with portfolioValue := grown }
  let lastValue := jlast st1.portfolioValues
  let dailyReturn := jdiv (jsub st1.portfolioValue lastValue) lastValue
  { st1 with
    dailyReturns := st1.dailyReturns ++ [dailyReturn]
    portfolioValues := st1.portfolioValues ++ [st1.portfolioValue] }

/-- The simulation loop over the tail of the price series; `prev` is
`priceData[i-1]` and the head of `rest` is `priceData[i]`. -/
def simLoop (params : SimulationParams) (startTime : ℤ) (priceData : List ℚ)
    (prev : ℚ) (rest : List ℚ) (i : ℕ) (st : SimState) : SimState :=
  match rest with
  | [] => st
  | cur :: rest' =>
      simLoop params startTime priceData cur rest' (i + 1)
        (simStep params startTime priceData prev cur i st)

/-- Embeds `calculateMaxDrawdown`: running-peak drawdown over the value series. -/
def calculateMaxDrawdown (values : List JsNum) : JsNum :=
  let peak0 := (values.get? 0).getD none
  (values.foldl
    (fun acc v =>
      let peak := if jsGt v acc.2 then v else acc.2
      (jmax acc.1 (jdiv (jsub peak v) peak), peak))
    ((some 0 : JsNum), peak0)).1

/-- Mean of a list of JavaScript numbers (`sum / length`; `NaN` on the empty
list through the 0/0). -/
def jsMean (returns : List JsNum) : JsNum :=
  jdiv (returns.foldl jadd (some 0)) (some (returns.length : ℚ))

/-- Embeds `calculateSharpeRatio`: mean over population standard deviation, 0 when
the standard deviation compares equal to 0. -/
def calculateSharpeRatio (returns : List JsNum) : JsNum :=
  let avgReturn := jsMean returns
  let variance :=
    jdiv (returns.foldl (fun a b => jadd a (jpowN (jsub b avgReturn) 2)) (some 0))
      (some (returns.length : ℚ))
  let stdDev := jsqrt variance
  if jsEqZero stdDev then some 0 else jdiv avgReturn stdDev

/-- Stable insertion used to model `Array.prototype.sort` with the numeric
comparator (the comparator's behavior on non-finite values is engine-defined;
no claim depends on the resulting order of those). -/
def jsSortInsert (x : JsNum) : List JsNum → List JsNum
  | [] => [x]
  | y :: rest => if jsLe y x ∨ y = none then y :: jsSortInsert x rest else x :: y :: rest

/-- Ascending sort of the returns, as in `[...returns].sort((a, b) => a - b)`. -/
def jsSortAsc (l : List JsNum) : List JsNum :=
  l.foldl (fun acc x => jsSortInsert x acc) []

/-- Sum of the first `n` elements of a JavaScript-number array
(`slice(0, n).reduce((a, b) => a + b, 0)`). -/
def jsSumTake (l : List JsNum) (n : ℕ) : JsNum :=
  (l.take n).foldl jadd (some 0)

/-- Embeds `calculateAdvancedMetrics` from the source. -/
def calculateAdvancedMetrics (returns : List JsNum) (values : List JsNum) :
    AdvancedMetrics :=
  let avgReturn := jsMean returns
  let variance :=
    jdiv (returns.foldl (fun a b => jadd a (jpowN (jsub b avgReturn) 2)) (some 0))
      (some (returns.length : ℚ))
  let volatility := jsqrt variance
  let maxDrawdown := calculateMaxDrawdown values
  let calmarRatio := if jsEqZero maxDrawdown then some 0 else jdiv avgReturn maxDrawdown
  let negativeReturns := returns.filter (fun r => jsLt r (some 0))
  let downsideVariance :=
    jdiv (negativeReturns.foldl (fun a b => jadd a (jpowN b 2)) (some 0))
      (some (negativeReturns.length : ℚ))
  let downsideDeviation := jsqrt downsideVariance
  let sortinoRatio :=
    if jsEqZero downsideDeviation then some 0 else jdiv avgReturn downsideDeviation
  let sortedReturns := jsSortAsc returns
  let var95Index : ℕ := (⌊(sortedReturns.length : ℚ) * (5/100)⌋).toNat
  let var95raw := (sortedReturns.get? var95Index).getD none
  let var95 := if var95raw = none ∨ var95raw = some 0 then some 0 else var95raw
  let cvar95 := jdiv (jsSumTake sortedReturns (var95Index + 1))
    (some ((var95Index + 1 : ℕ) : ℚ))
  { volatility := volatility, calmarRatio := calmarRatio,
    sortinoRatio := sortinoRatio, var95 := var95, cvar95 := cvar95 }

/-- Embeds `Math.pow` with a JavaScript-number exponent, used only for
`(1+totalReturn)^(365/duration)`: exact when the exponent is an integer;
a non-integer exponent yields no exact rational, so it is mapped to the
non-finite marker (no claim depends on that branch's value). -/
def jpowR (base expo : JsNum) : JsNum :=
  match base, expo with
  | some b, some e =>
      if e.den = 1 then
        if 0 ≤ e.num then some (b ^ e.num.toNat)
        else if b = 0 then none else some (b⁻¹ ^ (-e.num).toNat)
      else none
  | _, _ => none

/-- Embeds `generatePriceData`'s price walk: each step multiplies by
`1 + ((rand i - 0.5) * 0.02 + 0.0001)`. -/
def priceTail (rand : ℕ → ℚ) (cur : ℚ) (i : ℕ) : ℕ → List ℚ
  | 0 => []
  | fuel + 1 =>
      let next := cur * (1 + ((rand i - 1/2) * (2/100) + 1/10000))
      next :: priceTail rand next (i + 1) fuel

/-- Embeds `generatePriceData`: starts at price 100 and performs `days - 1` random
steps (`days` is exactly `params.duration` by the date arithmetic in
`runSimulation`). -/
def generatePriceData (rand : ℕ → ℚ) (days : ℕ) : List ℚ :=
  100 :: priceTail rand 100 1 (days - 1)

/-- Embeds `runSimulation` body after the price series is fixed: the day loop
followed by the metric aggregation.  `startTime` is `startDate.getTime()`. -/
def runSimulationOn (params : SimulationParams) (startTime : ℤ)
    (priceData : List ℚ) : SimulationResult :=
  let startValue := params.initialCapital
  let st0 : SimState :=
    { portfolioValue := some startValue, totalFees := some 0, dailyReturns := [],
      portfolioValues := [some startValue], rebalanceEvents := [] }
  let st :=
    match priceData with
    | [] => st0
    | p0 :: rest => simLoop params startTime priceData p0 rest 1 st0
  let finalValue := jlast st.portfolioValues
  let totalReturn := jdiv (jsub finalValue (some startValue)) (some startValue)
  let annualizedReturn :=
    jsub (jpowR (jadd (some 1) totalReturn)
      (jdiv (some 365) (some (params.duration : ℚ)))) (some 1)
  let netReturn := jsub totalReturn (jdiv st.totalFees (some startValue))
  let maxDrawdown := calculateMaxDrawdown st.portfolioValues
  let sharpeRatio := calculateSharpeRatio st.dailyReturns
  let winRate :=
    jdiv (some (((st.dailyReturns.filter (fun r => jsGt r (some 0))).length : ℚ)))
      (some (st.dailyReturns.length : ℚ))
  { finalValue := finalValue, totalReturn := totalReturn,
    annualizedReturn := annualizedReturn, maxDrawdown := maxDrawdown,
    sharpeRatio := sharpeRatio, winRate := winRate, totalFees := st.totalFees,
    netReturn := netReturn, dailyReturns := st.dailyReturns,
    portfolioValues := st.portfolioValues, rebalanceEvents := st.rebalanceEvents,
    metrics := calculateAdvancedMetrics st.dailyReturns st.portfolioValues }

/-- Embeds `runSimulation`: generates the mock price series (randomness injected as
`rand`) and runs the loop.  No exception is raised on any input: every error
path of the source is unreachable here, so the embedding is total. -/
def runSimulation (params : SimulationParams) (rand : ℕ → ℚ) (startTime : ℤ) :
    SimulationResult :=
  runSimulationOn params startTime (generatePriceData rand params.duration)

/-!
## Backtest comparator (`compareStrategies`, src/unnamed/part_002)

`results` is a JavaScript object; it is embedded as an association list whose
key order is the object's insertion order (`Object.keys`).  Keys are unique in
a JavaScript object, and `runBacktest` builds them that way.
-/

/-- JavaScript `Array.prototype.reduce` with the comparison step
`(a, b) => f(a) > f(b) ? a : b` (the accumulator keeps `a` only on a strict
win, so ties go to the later element). -/
def jsReduceBy (f : α → JsNum) (a : α) (t : List α) : α :=
  t.foldl (fun x y => if jsGt (f x) (f y) then x else y) a

/-- JavaScript `Array.prototype.reduce` with the step
`(a, b) => f(a) < f(b) ? a : b`. -/
def jsReduceByLt (f : α → JsNum) (a : α) (t : List α) : α :=
  t.foldl (fun x y => if jsLt (f x) (f y) then x else y) a

/-- The comparison record returned by `compareStrategies`. -/
structure StrategyComparison where
  bestStrategy : String
  worstStrategy : String
  riskAdjustedWinner : String
  deriving Repr, DecidableEq

/-- Lookup `results[key]` in the embedded object. -/
def lookupResult (results : List (String × SimulationResult)) (key : String) :
    Option SimulationResult :=
  (results.find? (fun p => p.1 = key)).map (·.2)

/-- Embeds `results[key].totalReturn` (`none` stands for the impossible miss). -/
def lookupTotalReturn (results : List (String × SimulationResult)) (key : String) :
    JsNum :=
  match lookupResult results key with
  | some r => r.totalReturn
  | none => none

/-- Embeds `results[key].sharpeRatio`. -/
def lookupSharpe (results : List (String × SimulationResult)) (key : String) :
    JsNum :=
  match lookupResult results key with
  | some r => r.sharpeRatio
  | none => none

/-- Embeds `compareStrategies`: best/worst by `totalReturn`, risk-adjusted winner by
`sharpeRatio`, each found by a `reduce` over `Object.keys(results)`.
JavaScript `reduce` on an empty array throws, hence the `Option`. -/
def compareStrategies (results : List (String × SimulationResult)) :
    Option StrategyComparison :=
  match results.map (·.1) with
  | [] => none
  | k :: ks =>
      some
        { bestStrategy := jsReduceBy (lookupTotalReturn results) k ks
          worstStrategy := jsReduceByLt (lookupTotalReturn results) k ks
          riskAdjustedWinner := jsReduceBy (lookupSharpe results) k ks }

/-!
## Order matching engine (src/src/lib/limit-order-service.ts)

The engine's state is the orders map, the stop-loss map and the per-pair order
book.  The maps iterate in insertion order and are embedded as lists; the
order book is a finite map from pair name to entry list.  The market-data
collaborator (`dlmmService.getMarketData(pair).price`) is injected as
`priceOf : String → ℚ`, and `new Date()` during a pass as `now : ℤ`.

In `checkOrderFills` the update of one order never depends on the book or on
the other orders, so the pass is embedded as a map over the orders together
with a fold of the book removals of the orders that fill — the same sequence
of operations the source loop performs.
-/

/-- Order side. -/
inductive OrderSide | buy | sell
  deriving Repr, DecidableEq

/-- Limit order lifecycle state. -/
inductive OrderStatus | pending | filled | cancelled | expired
  deriving Repr, DecidableEq

/-- Embeds `LimitOrder` from the source. -/
structure LimitOrder where
  id : String
  pair : String
  side : OrderSide
  amount : ℚ
  price : ℚ
  binId : ℤ
  status : OrderStatus
  createdAt : ℤ
  expiresAt : Option ℤ
  filledAt : Option ℤ
  filledAmount : Option ℚ
  filledPrice : Option ℚ
  deriving Repr, DecidableEq

/-- Embeds `OrderBookEntry` from the source. -/
structure OrderBookEntry where
  price : ℚ
  amount : ℚ
  binId : ℤ
  side : OrderSide
  deriving Repr, DecidableEq

/-- The per-pair order book (`Map<string, OrderBookEntry[]>`). -/
def OrderBook := String → List OrderBookEntry

/-- Whether an entry matches an order under `removeFromOrderBook`'s
exact-match search (price, amount and side). -/
def entryMatches (e : OrderBookEntry) (o : LimitOrder) : Bool :=
  e.price = o.price ∧ e.amount = o.amount ∧ e.side = o.side

/-- Remove the first matching entry of `l`, as `findIndex` + `splice` do. -/
def removeFirstMatch (o : LimitOrder) : List OrderBookEntry → List OrderBookEntry
  | [] => []
  | e :: rest => if entryMatches e o then rest else e :: removeFirstMatch o rest

/-- Embeds `removeFromOrderBook`: drop the first entry of the order's pair whose
price, amount and side coincide with the order's. -/
def removeFromOrderBook (book : OrderBook) (o : LimitOrder) : OrderBook :=
  fun pair => if pair = o.pair then removeFirstMatch o (book o.pair) else book pair

/-- Whether the expiry of `o` has passed at time `now`
(`order.expiresAt && new Date() > order.expiresAt`). -/
def orderExpired (now : ℤ) (o : LimitOrder) : Bool :=
  match o.expiresAt with
  | some e => decide (e < now)
  | none => false

/-- The fill condition of `checkOrderFills`: a buy fills when the current
price is at or below the limit price, a sell when it is at or above. -/
def shouldFill (priceOf : String → ℚ) (o : LimitOrder) : Bool :=
  match o.side with
  | .buy => decide (priceOf o.pair ≤ o.price)
  | .sell => decide (o.price ≤ priceOf o.pair)

/-- Whether the pass fills `o`: it must be pending, not expired, and meet the
fill condition (the expiry check precedes the fill in the loop body). -/
def fillsNow (now : ℤ) (priceOf : String → ℚ) (o : LimitOrder) : Bool :=
  o.status = OrderStatus.pending ∧ ¬ orderExpired now o ∧ shouldFill priceOf o

/-- The update `checkOrderFills` applies to a single order. -/
def updateOrderFill (now : ℤ) (priceOf : String → ℚ) (o : LimitOrder) :
    LimitOrder :=
  if o.status = OrderStatus.pending then
    if orderExpired now o then { o with status := OrderStatus.expired }
    else if shouldFill priceOf o then
      { o with
          status := OrderStatus.filled
          filledAt := some now
          filledAmount := some o.amount
          filledPrice := some (priceOf o.pair) }
    else o
  else o

/-- State owned by the limit-order service that `checkOrderFills` touches. -/
structure OrderServiceState where
  orders : List LimitOrder
  book : OrderBook

/-- Embeds `checkOrderFills`: every pending order is expired, filled or left
untouched; each filled order is removed from the book and collected.  Returns
the updated state together with the `filledOrders` array. -/
def checkOrderFills (st : OrderServiceState) (now : ℤ) (priceOf : String → ℚ) :
    OrderServiceState × List LimitOrder :=
  ({ orders := st.orders.map (updateOrderFill now priceOf)
     book := st.orders.foldl
       (fun b o => if fillsNow now priceOf o then removeFromOrderBook b o else b)
       st.book },
   (st.orders.filter (fillsNow now priceOf)).map (updateOrderFill now priceOf))

/-- Stop-loss lifecycle state. -/
inductive StopLossStatus | active | triggered | cancelled
  deriving Repr, DecidableEq

/-- Embeds `StopLossOrder` from the source (`position` is the opaque public key,
embedded as a string handle). -/
structure StopLossOrder where
  id : String
  position : String
  triggerPrice : ℚ
  amount : ℚ
  status : StopLossStatus
  createdAt : ℤ
  triggeredAt : Option ℤ
  deriving Repr, DecidableEq

/-- The position data the trigger check reads. -/
structure PositionData where
  totalValueUSD : ℚ
  deriving Repr, DecidableEq

/-- The update `checkStopLossTriggers` applies to a single active stop-loss:
the looked-up position's `totalValueUSD / totalValueUSD` is compared against
the trigger price; an unresolvable position leaves the order untouched. -/
def updateStopLoss (now : ℤ) (resolve : String → Option PositionData)
    (o : StopLossOrder) : StopLossOrder :=
  if o.status = StopLossStatus.active then
    match resolve o.position with
    | none => o
    | some pos =>
        let currentPrice := jdiv (some pos.totalValueUSD) (some pos.totalValueUSD)
        if jsLe currentPrice (some o.triggerPrice) then
          { o with status := StopLossStatus.triggered, triggeredAt := some now }
        else o
  else o

/-- Embeds `checkStopLossTriggers`: the pass over the stop-loss map, returning the
updated orders and the `triggeredOrders` array. -/
def checkStopLossTriggers (orders : List StopLossOrder) (now : ℤ)
    (resolve : String → Option PositionData) :
    List StopLossOrder × List StopLossOrder :=
  (orders.map (updateStopLoss now resolve),
   (orders.filter (fun o =>
      (updateStopLoss now resolve o).status = StopLossStatus.triggered ∧
        o.status = StopLossStatus.active)).map (updateStopLoss now resolve))

/-!
## Vocabulary for the frame property of `checkOrderFills`

`removeFromOrderBook` matches on (price, amount, side) only, so two orders
with those three fields equal on the same pair are indistinguishable to it.
The counting functions below state how many book entries and how many orders
carry a given order's match key.
-/

/-- Two orders carry the same order-book match key (same pair and same
(price, amount, side) triple). -/
def keyMatches (q o : LimitOrder) : Bool :=
  q.pair = o.pair ∧ q.price = o.price ∧ q.amount = o.amount ∧ q.side = o.side

/-- Number of entries of an entry list that `removeFromOrderBook` would
accept as a match for `o`. -/
def bookMatchCount (o : LimitOrder) (es : List OrderBookEntry) : ℕ :=
  es.countP (fun e => entryMatches e o)

/-- Number of pending orders carrying `o`'s match key. -/
def pendingMatchCount (o : LimitOrder) (orders : List LimitOrder) : ℕ :=
  orders.countP (fun q => decide (q.status = OrderStatus.pending) && keyMatches q o)

/-- Number of orders that fill in this pass and carry `o`'s match key. -/
def fillMatchCount (now : ℤ) (priceOf : String → ℚ) (o : LimitOrder)
    (orders : List LimitOrder) : ℕ :=
  orders.countP (fun q => fillsNow now priceOf q && keyMatches q o)

/-!
## Concrete sample data used by counterexamples and witnesses
-/

/-- A `SimulationResult` with a prescribed total return and Sharpe ratio
(every other field is inert filler; `compareStrategies` reads only these
two). -/
def mkSimResult (tr sh : ℚ) : SimulationResult :=
  { finalValue := some 0, totalReturn := some tr, annualizedReturn := some 0,
    maxDrawdown := some 0, sharpeRatio := some sh, winRate := some 0,
    totalFees := some 0, netReturn := some 0, dailyReturns := [],
    portfolioValues := [], rebalanceEvents := [],
    metrics := { volatility := some 0, calmarRatio := some 0,
                 sortinoRatio := some 0, var95 := some 0, cvar95 := some 0 } }

/-- A pending limit order for the sample pair, with a given side, limit
price and optional expiry. -/
def sampleOrder (side : OrderSide) (price : ℚ) (expiresAt : Option ℤ) :
    LimitOrder :=
  { id := "o1", pair := "SOL/USDC", side := side, amount := 5, price := price,
    binId := 0, status := OrderStatus.pending, createdAt := 0,
    expiresAt := expiresAt, filledAt := none, filledAmount := none,
    filledPrice := none }

/-- The book entry `createLimitOrder` inserts for `sampleOrder`. -/
def sampleEntry (side : OrderSide) (price : ℚ) : OrderBookEntry :=
  { price := price, amount := 5, binId := 0, side := side }

/-- A one-pair order book holding exactly the given entries for the sample
pair. -/
def sampleBook (es : List OrderBookEntry) : OrderBook :=
  fun pair => if pair = "SOL/USDC" then es else []

/-- An active stop-loss order with a given trigger price. -/
def sampleStopLoss (trigger : ℚ) : StopLossOrder :=
  { id := "sl1", position := "pos1", triggerPrice := trigger, amount := 3,
    status := StopLossStatus.active, createdAt := 0, triggeredAt := none }

/-- Simulation parameters used by concrete instantiations. -/
def sampleParams (strategy : StrategyTag) (duration : ℕ) : SimulationParams :=
  { initialCapital := 10000, strategy := strategy, duration := duration,
    rebalanceFrequency := 24, riskTolerance := RiskTag.medium,
    pair := "SOL/USDC" }

/-- A random sequence whose every draw is 0.495, which makes the generated
price walk exactly constant: `(0.495 - 0.5) * 0.02 + 0.0001 = 0`. -/
def flatRand : ℕ → ℚ := fun _ => 99/200

/-!
# Theorems

First a small toolbox of facts about the JavaScript-number operations, then
one theorem per claim (with its witness or counterexample where required).
-/

theorem jmul_none_left (y : JsNum) : jmul none y = none := by cases y <;> rfl

theorem jadd_none_right (x : JsNum) : jadd x none = none := by cases x <;> rfl

theorem jdiv_none_right (x : JsNum) : jdiv x none = none := by cases x <;> rfl

theorem jdiv_some_zero (x : JsNum) : jdiv x (some 0) = none := by
  cases x <;> simp [jdiv]

theorem foldl_none_of_step_none {β : Type} (F : JsNum → β → JsNum)
    (hF : ∀ acc b, F acc b = none) :
    ∀ (l : List β) (x : JsNum), l ≠ [] → l.foldl F x = none := by
  intro l
  induction l with
  | nil => intro x h; exact absurd rfl h
  | cons b rest ih =>
      intro x _
      cases rest with
      | nil => simpa [List.foldl] using hF x b
      | cons c rest' => simpa [List.foldl] using ih (F x b) (by simp)

/-- C1: the claim states that every generator except the volatility-adjusted
one satisfies `validateDistribution` for every width ≥ 1.  The code violates
this: `makeCenteredDistribution 3` leaves the center bin with only the
(mis-computed) remainder, its weights sum to 6667 basis points, and
`validateDistribution` rejects it.  The source's own comment says the width
"should be odd" and its remainder step is written to restore the 10000 total,
so the claim describes the intent and the code is the slip. -/
theorem centered_width3_fails_validation :
    validateDistribution (makeCenteredDistribution 3) = false ∧
    distTotalBps (makeCenteredDistribution 3) = 6667 := by
  have hr : intRange (-1) 1 = ([-1, 0, 1] : List ℤ) := by decide
  have h2 : distTotalBps (makeCenteredDistribution 3) = 6667 := by
    simp only [makeCenteredDistribution]
    norm_num [hr]
    norm_num [distTotalBps]
  refine ⟨?_, h2⟩
  rw [validateDistribution, h2]
  norm_num

/-- C2: the claim states that a run with duration < 2 fails with
`InsufficientData` and never returns NaN statistics.  The code raises no
error: for duration 1 the returns series is empty and `runSimulation`
returns normally with `sharpeRatio`, `winRate` and `volatility` all NaN
(the embedding is total exactly because no source error path can fire). -/
theorem runSimulation_duration1_nan_stats (c rf : ℚ) (strat : StrategyTag)
    (rt : RiskTag) (pr : String) (rand : ℕ → ℚ) (startTime : ℤ) :
    (runSimulation ⟨c, strat, 1, rf, rt, pr⟩ rand startTime).sharpeRatio = none ∧
    (runSimulation ⟨c, strat, 1, rf, rt, pr⟩ rand startTime).winRate = none ∧
    (runSimulation ⟨c, strat, 1, rf, rt, pr⟩ rand startTime).metrics.volatility
      = none := by
  refine ⟨?_, ?_, ?_⟩ <;> rfl

/-- C4: the claim states that with no negative daily returns the
sortino ratio is 0 (the empty-set downside deviation being guarded).  In the
code `downsideVariance` divides by the empty list's length, giving NaN, the
`=== 0` guard does not catch NaN, and the returned sortino ratio is NaN —
the guard the claim (and the code's own ternary) intends is missing. -/
theorem sortino_nan_when_no_negative_returns (returns values : List JsNum)
    (h : ∀ r ∈ returns, jsLt r (some 0) = false) :
    (calculateAdvancedMetrics returns values).sortinoRatio = none := by
  have hf : returns.filter (fun r => jsLt r (some 0)) = [] := by
    rw [List.filter_eq_nil_iff]
    intro a ha
    simp [h a ha]
  show (if jsEqZero (jsqrt (jdiv ((returns.filter
      (fun r => jsLt r (some 0))).foldl (fun a b => jadd a (jpowN b 2)) (some 0))
      (some ((returns.filter (fun r => jsLt r (some 0))).length : ℚ))))
    then some 0
    else jdiv (jsMean returns) (jsqrt (jdiv ((returns.filter
      (fun r => jsLt r (some 0))).foldl (fun a b => jadd a (jpowN b 2)) (some 0))
      (some ((returns.filter (fun r => jsLt r (some 0))).length : ℚ))))) = none
  rw [hf]
  simp [jdiv, jsqrt, jsEqZero, jdiv_none_right]

/-- Witness for C4 at the concrete no-negative-returns series
`[0.01, 0.02]`. -/
theorem sortino_nan_witness :
    (calculateAdvancedMetrics [some 1, some 2] [some 100]).sortinoRatio = none :=
  sortino_nan_when_no_negative_returns _ _ (by decide)

/-- C8 counterexample: the claim quantifies over ANY distribution whose
weighted variance is zero.  On the empty distribution the computed variance
is the fold's initial 0, yet the skewness fold also returns the numeric 0
instead of a NaN/DivideByZero signal, so the claim as stated is false. -/
theorem skewness_numeric_on_empty_distribution :
    distVariance ([] : List DistBin) = some 0 ∧
    (getDistributionMetrics ([] : List DistBin)).skewness = some 0 :=
  ⟨rfl, rfl⟩

/-- C8 amended: on every distribution with AT LEAST ONE BIN whose computed
weighted variance is 0, `getDistributionMetrics` signals NaN (the `none`
marker) as skewness instead of a numeric value: the standardized terms all
divide by the zero standard deviation. -/
theorem skewness_nan_on_zero_variance (d : List DistBin) (hne : d ≠ [])
    (hv : distVariance d = some 0) :
    (getDistributionMetrics d).skewness = none := by
  have hsd : distStdDev d = some 0 := by
    rw [distStdDev, hv]
    show (if (0 : ℚ) < 0 then none else some (ratSqrt 0)) = some 0
    norm_num [ratSqrt]
  show distSkewness d = none
  rw [distSkewness, hsd]
  refine foldl_none_of_step_none _ ?_ d (some 0) hne
  intro acc b
  rw [jdiv_some_zero]
  show jadd acc (jmul none _) = none
  rw [jmul_none_left, jadd_none_right]

/-- Witness for C8's amended theorem: a single bin carrying all 10000 bps at
the center has zero weighted variance and NaN skewness. -/
theorem skewness_nan_witness :
    (getDistributionMetrics [({ binRelativeId := 0, bpsX := 10000, bpsY := 0 }
      : DistBin)]).skewness = none :=
  skewness_nan_on_zero_variance _ (by simp)
    (by norm_num [distVariance, distMean, distTotalBps, jdiv, jsub, jpowN,
      jmul, jadd])

/-- C9: `checkStopLossTriggers` computes the "current price" as
`totalValueUSD / totalValueUSD`, which is the constant 1 whenever the
referenced position resolves with a nonzero value, so an active stop-loss
triggers exactly when its trigger price is at least 1, independent of any
market price. -/
theorem stopLoss_triggers_iff_triggerPrice_ge_one (orders : List StopLossOrder)
    (now : ℤ) (resolve : String → Option PositionData) (i : ℕ)
    (o : StopLossOrder) (ho : orders.get? i = some o)
    (hact : o.status = StopLossStatus.active) (pos : PositionData)
    (hres : resolve o.position = some pos) (hv : pos.totalValueUSD ≠ 0) :
    ∃ o2, (checkStopLossTriggers orders now resolve).1.get? i = some o2 ∧
      (o2.status = StopLossStatus.triggered ↔ 1 ≤ o.triggerPrice) := by
  refine ⟨updateStopLoss now resolve o, ?_, ?_⟩
  · show (orders.map (updateStopLoss now resolve)).get? i = _
    rw [List.get?_map, ho]
    rfl
  · have hcp : jdiv (some pos.totalValueUSD) (some pos.totalValueUSD)
        = some 1 := by
      simp [jdiv, hv, div_self hv]
    rw [updateStopLoss, if_pos hact, hres]
    show (if jsLe (jdiv (some pos.totalValueUSD) (some pos.totalValueUSD))
        (some o.triggerPrice) = true
      then { o with status := StopLossStatus.triggered, triggeredAt := some now }
      else o).status = StopLossStatus.triggered ↔ 1 ≤ o.triggerPrice
    rw [hcp]
    by_cases ht : 1 ≤ o.triggerPrice
    · simp [jsLe, ht]
    · simp [jsLe, ht, hact]

/-- Witness for C9: an active stop-loss with trigger price 2 on a position
worth 50 USD triggers (2 ≥ 1) even though no market price is consulted. -/
theorem stopLoss_triggers_witness :
    ∃ o2, (checkStopLossTriggers [sampleStopLoss 2] 5
        (fun p => if p = "pos1" then some { totalValueUSD := 50 } else none)).1.get? 0
        = some o2 ∧
      (o2.status = StopLossStatus.triggered ↔ 1 ≤ (sampleStopLoss 2).triggerPrice) :=
  stopLoss_triggers_iff_triggerPrice_ge_one _ 5 _ 0 (sampleStopLoss 2) rfl rfl
    { totalValueUSD := 50 } (by simp [sampleStopLoss]) (by norm_num)

theorem fillsNow_status_filled (now : ℤ) (priceOf : String → ℚ)
    (q : LimitOrder) (h : fillsNow now priceOf q = true) :
    (updateOrderFill now priceOf q).status = OrderStatus.filled := by
  have h3 : q.status = OrderStatus.pending ∧ orderExpired now q = false ∧
      shouldFill priceOf q = true := by
    simpa [fillsNow] using h
  rw [updateOrderFill, if_pos h3.1, h3.2.1]
  simp [h3.2.2]


theorem shouldFill_iff (priceOf : String → ℚ) (o : LimitOrder) :
    shouldFill priceOf o = true ↔
      ((o.side = OrderSide.buy ∧ priceOf o.pair ≤ o.price) ∨
        (o.side = OrderSide.sell ∧ o.price ≤ priceOf o.pair)) := by
  cases hside : o.side <;> simp [shouldFill, hside]

theorem updateOrderFill_of_fill (now : ℤ) (priceOf : String → ℚ)
    (o : LimitOrder) (hp : o.status = OrderStatus.pending)
    (hexp : orderExpired now o = false) (hsf : shouldFill priceOf o = true) :
    updateOrderFill now priceOf o =
      { o with
          status := OrderStatus.filled
          filledAt := some now
          filledAmount := some o.amount
          filledPrice := some (priceOf o.pair) } := by
  rw [updateOrderFill, if_pos hp, hexp, hsf]
  simp

theorem updateOrderFill_of_nofill (now : ℤ) (priceOf : String → ℚ)
    (o : LimitOrder) (hp : o.status = OrderStatus.pending)
    (hexp : orderExpired now o = false) (hsf : shouldFill priceOf o = false) :
    updateOrderFill now priceOf o = o := by
  rw [updateOrderFill, if_pos hp, hexp, hsf]
  simp

/-- C6: in every `checkOrderFills` pass, a pending order whose expiry has
passed transitions to expired and is not among the filled orders (expiry is
checked before the fill); otherwise a buy fills exactly when the current
price is ≤ the limit price and a sell exactly when it is ≥ (so at equality
both sides fill), and the recorded fill price is the observed current price,
not the limit price. -/
theorem checkOrderFills_expiry_and_fill_boundary (st : OrderServiceState)
    (now : ℤ) (priceOf : String → ℚ) (i : ℕ) (o : LimitOrder)
    (ho : st.orders.get? i = some o) (hp : o.status = OrderStatus.pending) :
    ∃ o2, (checkOrderFills st now priceOf).1.orders.get? i = some o2 ∧
      (orderExpired now o = true →
        o2.status = OrderStatus.expired ∧
          o2 ∉ (checkOrderFills st now priceOf).2) ∧
      (orderExpired now o = false →
        ((o2.status = OrderStatus.filled) ↔
          ((o.side = OrderSide.buy ∧ priceOf o.pair ≤ o.price) ∨
            (o.side = OrderSide.sell ∧ o.price ≤ priceOf o.pair))) ∧
        (o2.status = OrderStatus.filled →
          o2.filledPrice = some (priceOf o.pair))) := by
  refine ⟨updateOrderFill now priceOf o, ?_, ?_, ?_⟩
  · show (st.orders.map (updateOrderFill now priceOf)).get? i = _
    rw [List.get?_map, ho]
    rfl
  · intro hexp
    have hst : (updateOrderFill now priceOf o).status = OrderStatus.expired := by
      rw [updateOrderFill, if_pos hp, hexp]
      simp
    refine ⟨hst, ?_⟩
    intro hmem
    obtain ⟨q, hq, heq⟩ := List.mem_map.mp hmem
    have hqfill : fillsNow now priceOf q = true := (List.mem_filter.mp hq).2
    have hfq : (updateOrderFill now priceOf q).status = OrderStatus.filled :=
      fillsNow_status_filled now priceOf q hqfill
    rw [heq, hst] at hfq
    exact absurd hfq (by simp)
  · intro hexp
    rw [← shouldFill_iff priceOf o]
    cases hsf : shouldFill priceOf o with
    | false =>
        rw [updateOrderFill_of_nofill now priceOf o hp hexp hsf]
        constructor
        · rw [hp]
          simp
        · rw [hp]
          intro habs
          exact absurd habs (by simp)
    | true =>
        rw [updateOrderFill_of_fill now priceOf o hp hexp hsf]
        constructor
        · simp
        · intro _
          rfl

/-- Witness for C6: with the current price exactly at the limit price, a
pending buy and a pending sell both fill in the same pass, at the observed
price. -/
theorem checkOrderFills_boundary_witness :
    ∃ ob os,
      (checkOrderFills
          { orders := [sampleOrder OrderSide.buy 100 none,
                       sampleOrder OrderSide.sell 100 none]
            book := sampleBook [] }
          0 (fun _ => 100)).1.orders.get? 0 = some ob ∧
      (checkOrderFills
          { orders := [sampleOrder OrderSide.buy 100 none,
                       sampleOrder OrderSide.sell 100 none]
            book := sampleBook [] }
          0 (fun _ => 100)).1.orders.get? 1 = some os ∧
      ob.status = OrderStatus.filled ∧ os.status = OrderStatus.filled ∧
      ob.filledPrice = some 100 ∧ os.filledPrice = some 100 := by
  obtain ⟨ob, hzo, _hexpb, hfillb⟩ :=
    checkOrderFills_expiry_and_fill_boundary
      { orders := [sampleOrder OrderSide.buy 100 none,
                   sampleOrder OrderSide.sell 100 none]
        book := sampleBook [] }
      0 (fun _ => 100) 0 (sampleOrder OrderSide.buy 100 none) rfl rfl
  obtain ⟨os, hzs, _hexps, hfills⟩ :=
    checkOrderFills_expiry_and_fill_boundary
      { orders := [sampleOrder OrderSide.buy 100 none,
                   sampleOrder OrderSide.sell 100 none]
        book := sampleBook [] }
      0 (fun _ => 100) 1 (sampleOrder OrderSide.sell 100 none) rfl rfl
  have hb := hfillb rfl
  have hs := hfills rfl
  have hbf : ob.status = OrderStatus.filled := hb.1.mpr (Or.inl ⟨rfl, le_refl _⟩)
  have hsf : os.status = OrderStatus.filled := hs.1.mpr (Or.inr ⟨rfl, le_refl _⟩)
  exact ⟨ob, os, hzo, hzs, hbf, hsf, hb.2 hbf, hs.2 hsf⟩

theorem priceTail_length (rand : ℕ → ℚ) :
    ∀ (fuel : ℕ) (cur : ℚ) (i : ℕ), (priceTail rand cur i fuel).length = fuel := by
  intro fuel
  induction fuel with
  | zero => intro cur i; rfl
  | succ n ih => intro cur i; simp [priceTail, ih]

theorem simStep_values (params : SimulationParams) (startTime : ℤ)
    (pd : List ℚ) (prev cur : ℚ) (i : ℕ) (st : SimState) :
    ∃ x, (simStep params startTime pd prev cur i st).portfolioValues
      = st.portfolioValues ++ [x] := by
  by_cases h : (applyStrategy params (jdiv (some (cur - prev)) (some prev))
      i pd).rebalance
  · simp [simStep, h]
  · simp [simStep, h]

theorem simLoop_values_length (params : SimulationParams) (startTime : ℤ)
    (pd : List ℚ) :
    ∀ (rest : List ℚ) (prev : ℚ) (i : ℕ) (st : SimState),
      (simLoop params startTime pd prev rest i st).portfolioValues.length
        = st.portfolioValues.length + rest.length := by
  intro rest
  induction rest with
  | nil => intro prev i st; simp [simLoop]
  | cons cur rest' ih =>
      intro prev i st
      rw [simLoop, ih]
      obtain ⟨x, hx⟩ := simStep_values params startTime pd prev cur i st
      rw [hx]
      simp
      omega

theorem simLoop_values_head (params : SimulationParams) (startTime : ℤ)
    (pd : List ℚ) :
    ∀ (rest : List ℚ) (prev : ℚ) (i : ℕ) (st : SimState),
      st.portfolioValues ≠ [] →
      (simLoop params startTime pd prev rest i st).portfolioValues.head?
        = st.portfolioValues.head? := by
  intro rest
  induction rest with
  | nil => intro prev i st _; rfl
  | cons cur rest' ih =>
      intro prev i st hne
      rw [simLoop]
      obtain ⟨x, hx⟩ := simStep_values params startTime pd prev cur i st
      have h1 : (simStep params startTime pd prev cur i st).portfolioValues ≠ [] := by
        rw [hx]; simp
      rw [ih cur (i + 1) _ h1, hx]
      cases hv : st.portfolioValues with
      | nil => exact absurd hv hne
      | cons a t => simp

theorem runSimulationOn_state_cons (params : SimulationParams) (startTime : ℤ)
    (p0 : ℚ) (rest : List ℚ) :
    (runSimulationOn params startTime (p0 :: rest)).portfolioValues
        = (simLoop params startTime (p0 :: rest) p0 rest 1
            { portfolioValue := some params.initialCapital, totalFees := some 0,
              dailyReturns := [],
              portfolioValues := [some params.initialCapital],
              rebalanceEvents := [] }).portfolioValues ∧
      (runSimulationOn params startTime (p0 :: rest)).dailyReturns
        = (simLoop params startTime (p0 :: rest) p0 rest 1
            { portfolioValue := some params.initialCapital, totalFees := some 0,
              dailyReturns := [],
              portfolioValues := [some params.initialCapital],
              rebalanceEvents := [] }).dailyReturns ∧
      (runSimulationOn params startTime (p0 :: rest)).rebalanceEvents
        = (simLoop params startTime (p0 :: rest) p0 rest 1
            { portfolioValue := some params.initialCapital, totalFees := some 0,
              dailyReturns := [],
              portfolioValues := [some params.initialCapital],
              rebalanceEvents := [] }).rebalanceEvents :=
  ⟨rfl, rfl, rfl⟩

/-- C3 counterexample: for duration 2 (constant random draws), the returned
`portfolioValues` has length 2, not `duration + 1 = 3`: the generated price
series has one entry per day of the duration, so the loop performs
`duration - 1` steps on top of the initial value. -/
theorem portfolioValues_length_not_duration_succ :
    ¬ ((runSimulation (sampleParams StrategyTag.passive 2) flatRand
        0).portfolioValues.length = 2 + 1) := by
  have h : (runSimulation (sampleParams StrategyTag.passive 2) flatRand
      0).portfolioValues.length = 2 := by
    show (runSimulationOn (sampleParams StrategyTag.passive 2) 0
      (100 :: priceTail flatRand 100 1 1)).portfolioValues.length = 2
    rw [(runSimulationOn_state_cons _ _ _ _).1, simLoop_values_length]
    rw [priceTail_length]
    simp
  omega

/-- C3 amended: for every simulation with duration d ≥ 1, `portfolioValues`
has length d (one generated price per day, hence d−1 loop steps after the
initial value) — not d+1 — and its first entry is the initial capital. -/
theorem portfolioValues_length_eq_duration (params : SimulationParams)
    (rand : ℕ → ℚ) (startTime : ℤ) (h : 1 ≤ params.duration) :
    (runSimulation params rand startTime).portfolioValues.length
        = params.duration ∧
      (runSimulation params rand startTime).portfolioValues.head?
        = some (some params.initialCapital) := by
  have hpd : generatePriceData rand params.duration
      = 100 :: priceTail rand 100 1 (params.duration - 1) := rfl
  constructor
  · show (runSimulationOn _ _ (generatePriceData rand params.duration)).portfolioValues.length = _
    rw [hpd, (runSimulationOn_state_cons _ _ _ _).1, simLoop_values_length,
      priceTail_length]
    simp
    omega
  · show (runSimulationOn _ _ (generatePriceData rand params.duration)).portfolioValues.head? = _
    rw [hpd, (runSimulationOn_state_cons _ _ _ _).1,
      simLoop_values_head _ _ _ _ _ _ _ (by simp)]
    rfl

/-- Witness for C3's amended theorem at duration 30. -/
theorem portfolioValues_length_witness :
    (runSimulation (sampleParams StrategyTag.passive 30) flatRand
        0).portfolioValues.length = 30 ∧
      (runSimulation (sampleParams StrategyTag.passive 30) flatRand
        0).portfolioValues.head? = some (some 10000) :=
  portfolioValues_length_eq_duration (sampleParams StrategyTag.passive 30)
    flatRand 0 (by norm_num [sampleParams])

theorem jsReduceBy_cons {α : Type} (f : α → JsNum) (a b : α) (t : List α) :
    jsReduceBy f a (b :: t) = jsReduceBy f (if jsGt (f a) (f b) then a else b) t :=
  rfl

theorem jsReduceByLt_cons {α : Type} (f : α → JsNum) (a b : α) (t : List α) :
    jsReduceByLt f a (b :: t)
      = jsReduceByLt f (if jsLt (f a) (f b) then a else b) t :=
  rfl

theorem jsReduceBy_decomp {α : Type} (f : α → JsNum) (g : α → ℚ) :
    ∀ (t : List α) (a : α), (∀ x ∈ a :: t, f x = some (g x)) →
      ∃ l1 l2, a :: t = l1 ++ jsReduceBy f a t :: l2 ∧
        (∀ x ∈ l1, g x ≤ g (jsReduceBy f a t)) ∧
        (∀ x ∈ l2, g x < g (jsReduceBy f a t)) := by
  intro t
  induction t with
  | nil =>
      intro a _
      exact ⟨[], [], rfl, by simp, by simp⟩
  | cons b t' ih =>
      intro a hall
      have hfa : f a = some (g a) := hall a (by simp)
      have hfb : f b = some (g b) := hall b (by simp)
      rw [jsReduceBy_cons]
      by_cases hab : g b < g a
      · have hstep : (if jsGt (f a) (f b) then a else b) = a := by
          simp [jsGt, hfa, hfb, hab]
        rw [hstep]
        obtain ⟨l1, l2, hsplit, h1, h2⟩ := ih a (by
          intro x hx
          rcases List.mem_cons.mp hx with hx | hx
          · exact hx ▸ hfa
          · exact hall x (by simp [hx]))
        cases l1 with
        | nil =>
            have hr : jsReduceBy f a t' = a := (List.cons.injEq _ _ _ _ ▸ hsplit).1.symm
            have hl2 : t' = l2 := by
              have := (List.cons.injEq _ _ _ _ ▸ hsplit).2
              simpa using this
            refine ⟨[], b :: l2, ?_, by simp, ?_⟩
            · simp [hr, ← hl2]
            · intro x hx
              rcases List.mem_cons.mp hx with hx | hx
              · subst hx; rw [hr]; exact hab
              · exact h2 x hx
        | cons y l1' =>
            have hy : y = a := by
              have := hsplit
              simp only [List.cons_append, List.cons.injEq] at this
              exact this.1.symm
            have ht' : t' = l1' ++ jsReduceBy f a t' :: l2 := by
              have := hsplit
              simp only [List.cons_append, List.cons.injEq] at this
              exact this.2
            refine ⟨a :: b :: l1', l2, ?_, ?_, h2⟩
            · simp [List.cons_append, ← ht']
            · intro x hx
              rcases List.mem_cons.mp hx with hx | hx
              · subst hx; exact hy ▸ h1 y (by simp)
              · rcases List.mem_cons.mp hx with hx | hx
                · subst hx
                  exact le_of_lt (lt_of_lt_of_le hab (hy ▸ h1 y (by simp)))
                · exact h1 x (by simp [hx])
      · have hstep : (if jsGt (f a) (f b) then a else b) = b := by
          simp [jsGt, hfa, hfb, hab]
        rw [hstep]
        obtain ⟨l1, l2, hsplit, h1, h2⟩ := ih b (by
          intro x hx
          rcases List.mem_cons.mp hx with hx | hx
          · exact hx ▸ hfb
          · exact hall x (by simp [hx]))
        have hbr : g b ≤ g (jsReduceBy f b t') := by
          cases l1 with
          | nil =>
              have hr : jsReduceBy f b t' = b :=
                (List.cons.injEq _ _ _ _ ▸ hsplit).1.symm
              rw [hr]
          | cons y l1' =>
              have hy : y = b := by
                have := hsplit
                simp only [List.cons_append, List.cons.injEq] at this
                exact this.1.symm
              exact hy ▸ h1 y (by simp)
        refine ⟨a :: l1, l2, ?_, ?_, h2⟩
        · simp [hsplit]
        · intro x hx
          rcases List.mem_cons.mp hx with hx | hx
          · subst hx
            exact le_trans (not_lt.mp hab) hbr
          · exact h1 x hx

theorem jsReduceByLt_decomp {α : Type} (f : α → JsNum) (g : α → ℚ) :
    ∀ (t : List α) (a : α), (∀ x ∈ a :: t, f x = some (g x)) →
      ∃ l1 l2, a :: t = l1 ++ jsReduceByLt f a t :: l2 ∧
        (∀ x ∈ l1, g (jsReduceByLt f a t) ≤ g x) ∧
        (∀ x ∈ l2, g (jsReduceByLt f a t) < g x) := by
  intro t
  induction t with
  | nil =>
      intro a _
      exact ⟨[], [], rfl, by simp, by simp⟩
  | cons b t' ih =>
      intro a hall
      have hfa : f a = some (g a) := hall a (by simp)
      have hfb : f b = some (g b) := hall b (by simp)
      rw [jsReduceByLt_cons]
      by_cases hab : g a < g b
      · have hstep : (if jsLt (f a) (f b) then a else b) = a := by
          simp [jsLt, hfa, hfb, hab]
        rw [hstep]
        obtain ⟨l1, l2, hsplit, h1, h2⟩ := ih a (by
          intro x hx
          rcases List.mem_cons.mp hx with hx | hx
          · exact hx ▸ hfa
          · exact hall x (by simp [hx]))
        cases l1 with
        | nil =>
            have hr : jsReduceByLt f a t' = a :=
              (List.cons.injEq _ _ _ _ ▸ hsplit).1.symm
            have hl2 : t' = l2 := by
              have := (List.cons.injEq _ _ _ _ ▸ hsplit).2
              simpa using this
            refine ⟨[], b :: l2, ?_, by simp, ?_⟩
            · simp [hr, ← hl2]
            · intro x hx
              rcases List.mem_cons.mp hx with hx | hx
              · subst hx; rw [hr]; exact hab
              · exact h2 x hx
        | cons y l1' =>
            have hy : y = a := by
              have := hsplit
              simp only [List.cons_append, List.cons.injEq] at this
              exact this.1.symm
            have ht' : t' = l1' ++ jsReduceByLt f a t' :: l2 := by
              have := hsplit
              simp only [List.cons_append, List.cons.injEq] at this
              exact this.2
            refine ⟨a :: b :: l1', l2, ?_, ?_, h2⟩
            · simp [List.cons_append, ← ht']
            · intro x hx
              rcases List.mem_cons.mp hx with hx | hx
              · subst hx; exact hy ▸ h1 y (by simp)
              · rcases List.mem_cons.mp hx with hx | hx
                · subst hx
                  exact le_of_lt (lt_of_le_of_lt (hy ▸ h1 y (by simp)) hab)
                · exact h1 x (by simp [hx])
      · have hstep : (if jsLt (f a) (f b) then a else b) = b := by
          simp [jsLt, hfa, hfb, hab]
        rw [hstep]
        obtain ⟨l1, l2, hsplit, h1, h2⟩ := ih b (by
          intro x hx
          rcases List.mem_cons.mp hx with hx | hx
          · exact hx ▸ hfb
          · exact hall x (by simp [hx]))
        have hbr : g (jsReduceByLt f b t') ≤ g b := by
          cases l1 with
          | nil =>
              have hr : jsReduceByLt f b t' = b :=
                (List.cons.injEq _ _ _ _ ▸ hsplit).1.symm
              rw [hr]
          | cons y l1' =>
              have hy : y = b := by
                have := hsplit
                simp only [List.cons_append, List.cons.injEq] at this
                exact this.1.symm
              exact hy ▸ h1 y (by simp)
        refine ⟨a :: l1, l2, ?_, ?_, h2⟩
        · simp [hsplit]
        · intro x hx
          rcases List.mem_cons.mp hx with hx | hx
          · subst hx
            exact le_trans hbr (not_lt.mp hab)
          · exact h1 x hx

/-- C5 counterexample: on a tie the `reduce` steps `a > b ? a : b` and
`a < b ? a : b` keep the accumulator only on a strict win, so the LAST
candidate in input order wins, not the first: two candidates with equal
totalReturn (and equal sharpeRatio) select "B", where the claim's
first-encountered rule would select "A". -/
theorem compareStrategies_tie_last_wins :
    compareStrategies [("A", mkSimResult (1/10) 1), ("B", mkSimResult (1/10) 1)]
      = some { bestStrategy := "B", worstStrategy := "B",
               riskAdjustedWinner := "B" } := by
  simp [compareStrategies, jsReduceBy, jsReduceByLt, lookupTotalReturn,
    lookupSharpe, lookupResult, mkSimResult, jsGt, jsLt]

/-- C5 amended: `compareStrategies` returns as best strategy a candidate
with maximal totalReturn, as worst one with minimal totalReturn, and as
risk-adjusted winner one with maximal sharpeRatio; when candidates tie on
the compared metric the one encountered LAST in input order wins (every
later candidate is strictly worse, every earlier one only weakly).  On the
claim's concrete example {A: 0.10, B: 0.25} it returns best "B" and
worst "A". -/
theorem compareStrategies_ranking (l : List (String × SimulationResult))
    (tr sh : String → ℚ) (hne : l ≠ [])
    (htr : ∀ k ∈ l.map (fun p => p.1), lookupTotalReturn l k = some (tr k))
    (hsh : ∀ k ∈ l.map (fun p => p.1), lookupSharpe l k = some (sh k)) :
    (∃ c, compareStrategies l = some c ∧
      (∃ l1 l2, l.map (fun p => p.1) = l1 ++ c.bestStrategy :: l2 ∧
        (∀ k ∈ l1, tr k ≤ tr c.bestStrategy) ∧
        (∀ k ∈ l2, tr k < tr c.bestStrategy)) ∧
      (∃ l1 l2, l.map (fun p => p.1) = l1 ++ c.worstStrategy :: l2 ∧
        (∀ k ∈ l1, tr c.worstStrategy ≤ tr k) ∧
        (∀ k ∈ l2, tr c.worstStrategy < tr k)) ∧
      (∃ l1 l2, l.map (fun p => p.1) = l1 ++ c.riskAdjustedWinner :: l2 ∧
        (∀ k ∈ l1, sh k ≤ sh c.riskAdjustedWinner) ∧
        (∀ k ∈ l2, sh k < sh c.riskAdjustedWinner))) ∧
    (compareStrategies [("A", mkSimResult (1/10) 1),
        ("B", mkSimResult (1/4) 1)]).map
      (fun c => (c.bestStrategy, c.worstStrategy)) = some ("B", "A") := by
  constructor
  · cases l with
    | nil => exact absurd rfl hne
    | cons p ps =>
        refine ⟨_, rfl, ?_, ?_, ?_⟩
        · exact jsReduceBy_decomp (lookupTotalReturn (p :: ps)) tr
            (ps.map (fun q => q.1)) p.1 (fun x hx => htr x (by simpa using hx))
        · exact jsReduceByLt_decomp (lookupTotalReturn (p :: ps)) tr
            (ps.map (fun q => q.1)) p.1 (fun x hx => htr x (by simpa using hx))
        · exact jsReduceBy_decomp (lookupSharpe (p :: ps)) sh
            (ps.map (fun q => q.1)) p.1 (fun x hx => hsh x (by simpa using hx))
  · simp [compareStrategies, jsReduceBy, jsReduceByLt, lookupTotalReturn,
      lookupSharpe, lookupResult, mkSimResult, jsGt, jsLt]
    norm_num

/-- Witness for C5's amended theorem, instantiated at the claim's concrete
example {A: 0.10, B: 0.25}. -/
theorem compareStrategies_ranking_witness :
    (compareStrategies [("A", mkSimResult (1/10) 1),
        ("B", mkSimResult (1/4) 1)]).map
      (fun c => (c.bestStrategy, c.worstStrategy)) = some ("B", "A") :=
  (compareStrategies_ranking
    [("A", mkSimResult (1/10) 1), ("B", mkSimResult (1/4) 1)]
    (fun k => if k = "B" then (1/4 : ℚ) else 1/10) (fun _ => 1)
    (by simp)
    (by
      intro k hk
      fin_cases hk <;>
        simp [lookupTotalReturn, lookupResult, mkSimResult])
    (by
      intro k hk
      fin_cases hk <;>
        simp [lookupSharpe, lookupResult, mkSimResult])).2

theorem jlast_append (vs : List JsNum) (x : JsNum) : jlast (vs ++ [x]) = x := by
  simp [jlast]

theorem simStep_passive_const_rebalance (params : SimulationParams)
    (hstrat : params.strategy = StrategyTag.passive) (startTime : ℤ)
    (pd : List ℚ) (p : ℚ) (hp : p ≠ 0) (i : ℕ) (hi : i % 7 = 0)
    (w : ℚ) (hw : w ≠ 0) (fees : JsNum) (ds vs : List JsNum)
    (es : List RebalanceEvent) (hlast : jlast vs = some w) :
    simStep params startTime pd p p i ⟨some w, fees, ds, vs, es⟩ =
      ⟨some (w * (997/1000)), jadd fees (some (w * (3/1000))),
        ds ++ [some (-(3/1000) : ℚ)], vs ++ [some (w * (997/1000))],
        es ++ [{ timestamp := startTime + (i : ℤ) * msPerDay,
                 action := "rebalance", amount := some w, price := p,
                 reason := "Weekly rebalance" }]⟩ := by
  have hpc : jdiv (some (p - p)) (some p) = some 0 := by
    simp [jdiv, hp]
  have hdec : applyStrategy params (jdiv (some (p - p)) (some p)) i pd =
      { rebalance := true,
        newDistribution := some (generateBalancedDistribution params.riskTolerance),
        reason := "Weekly rebalance" } := by
    rw [hpc, applyStrategy, hstrat, applyPassiveStrategy, if_pos hi]
  simp only [simStep, hdec, executeRebalance]
  simp only [hpc]
  simp [jmul, jsub, jadd, jdiv, hw, hlast]
  refine ⟨by ring, ?_, by ring⟩
  field_simp
  ring

theorem simStep_passive_const_hold (params : SimulationParams)
    (hstrat : params.strategy = StrategyTag.passive) (startTime : ℤ)
    (pd : List ℚ) (p : ℚ) (hp : p ≠ 0) (i : ℕ) (hi : ¬ i % 7 = 0)
    (w : ℚ) (hw : w ≠ 0) (fees : JsNum) (ds vs : List JsNum)
    (es : List RebalanceEvent) (hlast : jlast vs = some w) :
    simStep params startTime pd p p i ⟨some w, fees, ds, vs, es⟩ =
      ⟨some w, fees, ds ++ [some (0 : ℚ)], vs ++ [some w], es⟩ := by
  have hpc : jdiv (some (p - p)) (some p) = some 0 := by
    simp [jdiv, hp]
  have hdec : applyStrategy params (jdiv (some (p - p)) (some p)) i pd =
      { rebalance := false, newDistribution := none,
        reason := "No rebalance needed" } := by
    rw [hpc, applyStrategy, hstrat, applyPassiveStrategy, if_neg hi]
  simp only [simStep, hdec]
  simp only [hpc]
  simp [jmul, jsub, jadd, jdiv, hw, hlast]

theorem simLoop_passive_const (params : SimulationParams)
    (hstrat : params.strategy = StrategyTag.passive) (startTime : ℤ)
    (pd : List ℚ) (p : ℚ) (hp : p ≠ 0) :
    ∀ (n : ℕ) (i : ℕ) (w : ℚ) (hw : w ≠ 0) (fees : JsNum)
      (ds vs : List JsNum) (es : List RebalanceEvent)
      (hlast : jlast vs = some w),
      (simLoop params startTime pd p (List.replicate n p) i
          ⟨some w, fees, ds, vs, es⟩).dailyReturns
        = ds ++ (List.range' i n).map
            (fun j => if j % 7 = 0 then some (-(3/1000) : ℚ) else some 0) ∧
      (simLoop params startTime pd p (List.replicate n p) i
          ⟨some w, fees, ds, vs, es⟩).rebalanceEvents.map (fun e => e.timestamp)
        = es.map (fun e => e.timestamp) ++
          ((List.range' i n).filter (fun j => j % 7 = 0)).map
            (fun (j : ℕ) => startTime + (j : ℤ) * msPerDay) := by
  intro n
  induction n with
  | zero =>
      intro i w hw fees ds vs es hlast
      simp [simLoop]
  | succ m ih =>
      intro i w hw fees ds vs es hlast
      rw [List.replicate_succ, simLoop]
      by_cases hi : i % 7 = 0
      · rw [simStep_passive_const_rebalance params hstrat startTime pd p hp i hi
          w hw fees ds vs es hlast]
        have hw2 : w * (997/1000) ≠ 0 := by
          exact mul_ne_zero hw (by norm_num)
        obtain ⟨h1, h2⟩ := ih (i + 1) (w * (997/1000)) hw2
          (jadd fees (some (w * (3/1000)))) (ds ++ [some (-(3/1000) : ℚ)])
          (vs ++ [some (w * (997/1000))])
          (es ++ [{ timestamp := startTime + (i : ℤ) * msPerDay,
                    action := "rebalance", amount := some w, price := p,
                    reason := "Weekly rebalance" }])
          (jlast_append _ _)
        rw [h1, h2, List.range'_succ]
        constructor
        · rw [List.map_cons, if_pos hi, List.append_assoc]
          rfl
        · rw [List.filter_cons_of_pos (by simpa using hi), List.map_cons,
            List.map_append, List.append_assoc]
          rfl
      · rw [simStep_passive_const_hold params hstrat startTime pd p hp i hi
          w hw fees ds vs es hlast]
        obtain ⟨h1, h2⟩ := ih (i + 1) w hw fees (ds ++ [some (0 : ℚ)])
          (vs ++ [some w]) es (jlast_append _ _)
        rw [h1, h2, List.range'_succ]
        constructor
        · rw [List.map_cons, if_neg hi, List.append_assoc]
          rfl
        · rw [List.filter_cons_of_neg (by simpa using hi)]

theorem range'_one_29_get (i : ℕ) (hi1 : 1 ≤ i) (hi30 : i < 30) :
    (List.range' 1 29).get? (i - 1) = some i := by
  rw [List.get?_eq_getElem?, List.getElem?_range' 1 1]
  · congr 1
    omega
  · omega

/-- C7: a 30-day passive simulation over a constant (zero-volatility) price
series rebalances exactly on day indices 7, 14, 21 and 28 (the day indices in
1..29 divisible by 7) and on no other day, and every non-rebalance day
records a daily return of exactly 0. -/
theorem passive_const_price_rebalance_days (c p : ℚ) (hc : 0 < c) (hp : 0 < p)
    (rf : ℚ) (rt : RiskTag) (pr : String) (startTime : ℤ) :
    (runSimulationOn ⟨c, StrategyTag.passive, 30, rf, rt, pr⟩ startTime
        (List.replicate 30 p)).rebalanceEvents.map (fun e => e.timestamp)
      = [startTime + 7 * msPerDay, startTime + 14 * msPerDay,
         startTime + 21 * msPerDay, startTime + 28 * msPerDay] ∧
    (∀ i : ℕ, 1 ≤ i → i < 30 → i % 7 ≠ 0 →
      (runSimulationOn ⟨c, StrategyTag.passive, 30, rf, rt, pr⟩ startTime
        (List.replicate 30 p)).dailyReturns.get? (i - 1) = some (some 0)) := by
  have hrep : List.replicate 30 p = p :: List.replicate 29 p := rfl
  obtain ⟨h1, h2⟩ := simLoop_passive_const
    ⟨c, StrategyTag.passive, 30, rf, rt, pr⟩ rfl startTime
    (p :: List.replicate 29 p) p (ne_of_gt hp) 29 1
    ((⟨c, StrategyTag.passive, 30, rf, rt, pr⟩ : SimulationParams).initialCapital)
    (ne_of_gt hc) (some 0) []
    [some (⟨c, StrategyTag.passive, 30, rf, rt, pr⟩ :
      SimulationParams).initialCapital] [] rfl
  have hst := runSimulationOn_state_cons
    ⟨c, StrategyTag.passive, 30, rf, rt, pr⟩ startTime p (List.replicate 29 p)
  constructor
  · rw [hrep]
    rw [hst.2.2]
    rw [h2]
    rw [show (List.range' 1 29).filter (fun j => j % 7 = 0) = [7, 14, 21, 28]
      from by decide]
    simp
  · intro i hi1 hi30 hi7
    rw [hrep]
    rw [hst.2.1]
    rw [h1]
    simp only [List.nil_append, List.get?_map]
    rw [range'_one_29_get i hi1 hi30]
    simp [hi7]

/-- Witness for C7 at capital 10000 and constant price 100: rebalance events
fall exactly on days 7, 14, 21, 28, and day 1 (a non-rebalance day) records a
zero return. -/
theorem passive_const_price_witness :
    (runSimulationOn ⟨10000, StrategyTag.passive, 30, 24, RiskTag.medium,
        "SOL/USDC"⟩ 0 (List.replicate 30 100)).rebalanceEvents.map
      (fun e => e.timestamp)
      = [0 + 7 * msPerDay, 0 + 14 * msPerDay, 0 + 21 * msPerDay,
         0 + 28 * msPerDay] ∧
    (runSimulationOn ⟨10000, StrategyTag.passive, 30, 24, RiskTag.medium,
        "SOL/USDC"⟩ 0 (List.replicate 30 100)).dailyReturns.get? (1 - 1)
      = some (some 0) :=
  ⟨(passive_const_price_rebalance_days 10000 100 (by norm_num) (by norm_num)
      24 RiskTag.medium "SOL/USDC" 0).1,
   (passive_const_price_rebalance_days 10000 100 (by norm_num) (by norm_num)
      24 RiskTag.medium "SOL/USDC" 0).2 1 (by norm_num) (by norm_num)
      (by norm_num)⟩

theorem keyMatches_of_entry (e : OrderBookEntry) (q o : LimitOrder)
    (hq : entryMatches e q = true) (ho : entryMatches e o = true) :
    (q.price = o.price ∧ q.amount = o.amount ∧ q.side = o.side) := by
  simp [entryMatches] at hq ho
  exact ⟨hq.1.symm.trans ho.1, hq.2.1.symm.trans ho.2.1, hq.2.2.symm.trans ho.2.2⟩

theorem bookMatchCount_removeFirstMatch (o q : LimitOrder) :
    ∀ es : List OrderBookEntry,
      bookMatchCount o es ≤ bookMatchCount o (removeFirstMatch q es) +
        (if q.price = o.price ∧ q.amount = o.amount ∧ q.side = o.side
          then 1 else 0) := by
  intro es
  induction es with
  | nil => simp [removeFirstMatch, bookMatchCount]
  | cons e rest ih =>
      rw [removeFirstMatch]
      by_cases hm : entryMatches e q = true
      · rw [if_pos hm]
        rw [bookMatchCount, List.countP_cons]
        by_cases hmo : entryMatches e o = true
        · rw [if_pos (keyMatches_of_entry e q o hm hmo)]
          simp [hmo, bookMatchCount]
        · simp only [hmo, if_false, Bool.false_eq_true]
          have hle : (0 : ℕ) ≤ if q.price = o.price ∧ q.amount = o.amount ∧
              q.side = o.side then 1 else 0 := Nat.zero_le _
          rw [bookMatchCount]
          omega
      · rw [if_neg hm]
        rw [bookMatchCount, List.countP_cons, bookMatchCount, List.countP_cons]
        have h2 := ih
        rw [bookMatchCount, bookMatchCount] at h2
        omega

theorem bookMatchCount_fillFold (now : ℤ) (priceOf : String → ℚ)
    (o : LimitOrder) :
    ∀ (orders : List LimitOrder) (b : OrderBook),
      bookMatchCount o (b o.pair) ≤
        bookMatchCount o
          ((orders.foldl
            (fun b o => if fillsNow now priceOf o then removeFromOrderBook b o
              else b) b) o.pair) +
          fillMatchCount now priceOf o orders := by
  intro orders
  induction orders with
  | nil =>
      intro b
      simp [fillMatchCount]
  | cons q rest ih =>
      intro b
      rw [List.foldl_cons, fillMatchCount, List.countP_cons]
      by_cases hf : fillsNow now priceOf q = true
      · rw [if_pos hf]
        have h2 := ih (removeFromOrderBook b q)
        rw [fillMatchCount] at h2
        by_cases hqp : q.pair = o.pair
        · have hb : (removeFromOrderBook b q) o.pair
              = removeFirstMatch q (b o.pair) := by
            simp [removeFromOrderBook, hqp]
          rw [hb] at h2
          have h1 := bookMatchCount_removeFirstMatch o q (b o.pair)
          by_cases hk : q.price = o.price ∧ q.amount = o.amount ∧
              q.side = o.side
          · rw [if_pos hk] at h1
            have hkm : (fillsNow now priceOf q && keyMatches q o) = true := by
              simp [hf, keyMatches, hqp, hk.1, hk.2.1, hk.2.2]
            rw [hkm, if_pos rfl]
            omega
          · rw [if_neg hk] at h1
            have hle : (0 : ℕ) ≤ if (fillsNow now priceOf q &&
                keyMatches q o) = true then 1 else 0 := Nat.zero_le _
            omega
        · have hne : ¬ (o.pair = q.pair) := fun h => hqp h.symm
          have hb : (removeFromOrderBook b q) o.pair = b o.pair := by
            simp [removeFromOrderBook, hne]
          rw [hb] at h2
          have hle : (0 : ℕ) ≤ if (fillsNow now priceOf q &&
              keyMatches q o) = true then 1 else 0 := Nat.zero_le _
          omega
      · have hstep : (if fillsNow now priceOf q = true
            then removeFromOrderBook b q else b) = b := if_neg hf
        rw [hstep]
        have h2 := ih b
        rw [fillMatchCount] at h2
        have hff : fillsNow now priceOf q = false := by
          simpa using hf
        rw [hff]
        simp only [Bool.false_and, Bool.false_eq_true, if_false]
        omega

theorem fillMatchCount_lt_pending (now : ℤ) (priceOf : String → ℚ)
    (o : LimitOrder) (orders : List LimitOrder) (ho : o ∈ orders)
    (hp : o.status = OrderStatus.pending) (hexp : orderExpired now o = true) :
    fillMatchCount now priceOf o orders + 1 ≤ pendingMatchCount o orders := by
  obtain ⟨s, t, rfl⟩ := List.append_of_mem ho
  rw [fillMatchCount, pendingMatchCount]
  rw [List.countP_append, List.countP_append, List.countP_cons,
    List.countP_cons]
  have hmono : ∀ l : List LimitOrder,
      l.countP (fun q => fillsNow now priceOf q && keyMatches q o) ≤
        l.countP (fun q => decide (q.status = OrderStatus.pending) &&
          keyMatches q o) := by
    intro l
    apply List.countP_mono_left
    intro q _ hq
    simp only [Bool.and_eq_true] at hq ⊢
    refine ⟨?_, hq.2⟩
    have hq1 := hq.1
    simp only [fillsNow, decide_eq_true_eq] at hq1
    simp [hq1.1]
  have hofill : (fillsNow now priceOf o && keyMatches o o) = false := by
    simp [fillsNow, hexp]
  have hopend : (decide (o.status = OrderStatus.pending) &&
      keyMatches o o) = true := by
    simp [hp, keyMatches]
  rw [hofill, hopend]
  have h1 := hmono s
  have h2 := hmono t
  simp only [Bool.false_eq_true, if_false, if_true]
  omega

/-- C10: when a `checkOrderFills` pass expires a pending limit order, the
order's book entry is not removed (`removeFromOrderBook` runs only for
orders that fill, and cancellation is a separate operation), so whenever the
book holds at least as many entries carrying the order's (price, amount,
side) key as there are pending orders carrying that key, an entry with the
expired order's price, amount and side is still in its pair's book after the
pass. -/
theorem expired_order_entry_remains_in_book (st : OrderServiceState)
    (now : ℤ) (priceOf : String → ℚ) (o : LimitOrder) (ho : o ∈ st.orders)
    (hp : o.status = OrderStatus.pending) (hexp : orderExpired now o = true)
    (hinv : pendingMatchCount o st.orders ≤ bookMatchCount o (st.book o.pair)) :
    ∃ e ∈ (checkOrderFills st now priceOf).1.book o.pair,
      entryMatches e o = true := by
  have hfold := bookMatchCount_fillFold now priceOf o st.orders st.book
  have hcnt := fillMatchCount_lt_pending now priceOf o st.orders ho hp hexp
  have hpos : 0 < bookMatchCount o
      ((checkOrderFills st now priceOf).1.book o.pair) := by
    show 0 < bookMatchCount o
      ((st.orders.foldl
        (fun b o => if fillsNow now priceOf o then removeFromOrderBook b o
          else b) st.book) o.pair)
    omega
  rw [bookMatchCount] at hpos
  exact List.countP_pos_iff.mp hpos

/-- Witness for C10: a single expired buy order whose entry sits in the
book; after the pass the entry is still there. -/
theorem expired_order_entry_witness :
    ∃ e ∈ (checkOrderFills
        { orders := [sampleOrder OrderSide.buy 100 (some 0)]
          book := sampleBook [sampleEntry OrderSide.buy 100] }
        5 (fun _ => 100)).1.book (sampleOrder OrderSide.buy 100 (some 0)).pair,
      entryMatches e (sampleOrder OrderSide.buy 100 (some 0)) = true :=
  expired_order_entry_remains_in_book
    { orders := [sampleOrder OrderSide.buy 100 (some 0)]
      book := sampleBook [sampleEntry OrderSide.buy 100] }
    5 (fun _ => 100) (sampleOrder OrderSide.buy 100 (some 0))
    (by simp) rfl (by decide) (by decide)
